import Mathlib

/-!
Shallow embedding of the DocAligner backend (Python, FastAPI) used to check
the natural-language specification against the code.

Embedded source files:
  * `backend/app/services/decision_flow_service.py` (`DecisionFlowService.apply`)
  * `backend/app/services/validation_service.py`   (`ValidationService.validate_document`
    and its helpers `_validate_odf`, `_has_macros`, `_has_macros_docx`,
    `_validate_styles`)
  * `backend/app/services/inheritance_service.py`  (`InheritanceService.get_effective_standard_version`)
  * `backend/app/api/v1/endpoints/assignments.py`  (`assign_standard`)
  * `backend/app/services/standard_service.py`     (`StandardService.apply_to_document`)

Python strings are Lean `String`s; Python `str` operations that the code uses
(`startswith`, `endswith`, `in`, `lower`, `len`) are embedded as executable
char-list functions so that concrete runs reduce inside the kernel.
-/

namespace DocAligner

/-! ### String primitives (Python `str` operations) -/

/-- Substring occurrence on char lists: Python `pat in s`. -/
def listContainsSub (pat : List Char) : List Char → Bool
  | [] => pat.isPrefixOf []
  | c :: rest => pat.isPrefixOf (c :: rest) || listContainsSub pat rest

/-- Python `s.startswith(pre)`. -/
def strStartsWith (s pre : String) : Bool := pre.data.isPrefixOf s.data

/-- Python `s.endswith(suf)`. -/
def strEndsWith (s suf : String) : Bool := suf.data.isSuffixOf s.data

/-- Python `pat in s`. -/
def strContains (s pat : String) : Bool := listContainsSub pat.data s.data

/-- Python `s.lower()`. -/
def strToLower (s : String) : String := ⟨s.data.map Char.toLower⟩

/-! ### Decision flow service (`decision_flow_service.py`)

`DecisionFlowService.apply` is an orchestrator around three external LLM
calls (`ai_service.analyze_compatibility`, `ai_service.select_rules`,
`ai_service.transform_document`).  The embedding starts after the analysis
phase succeeded (its outputs `text`, `compatibility`, `score`, `risk` are
inputs here) and takes the results of the two remaining LLM calls as oracle
inputs: `rule_selection` as `Except` (the Python dict may carry an `"error"`
key) and `transform_result` (dict shape or legacy plain string). -/

/-- A rule as consumed by the orchestrator (`r.get("rule_path")`,
`r.get("description")`). -/
structure Rule where
  rule_path : String
  description : String
deriving DecidableEq, Repr

/-- Result of `ai_service.select_rules`. -/
structure RuleSelection where
  safe_rules : List Rule
  conditional_rules : List Rule
  forbidden_rules : List Rule
deriving DecidableEq, Repr

/-- A warning entry built for conditional rules in the `selective_apply` tier. -/
structure RuleWarning where
  rule_path : String
  description : String
  message : String
deriving DecidableEq, Repr

/-- Result of `ai_service.transform_document`: either the structured dict
response or the legacy plain-string response. -/
inductive TransformResult where
  | structured (transformed_text : String) (deviations preserved_items : List String)
      (change_summary : String)
  | legacy (text : String)
deriving DecidableEq, Repr

/-- The final report dict returned by `DecisionFlowService.apply` on the
normal path (this dict carries no `"error"` key). -/
structure ApplyResponse where
  action : String
  compatibility : String
  score : Int
  risk : String
  rule_selection : RuleSelection
  warnings : List RuleWarning
  transformed_content : Option String
  original_content : String
  filename : String
  deviations : List String
  preserved_items : List String
  change_summary : String
deriving DecidableEq, Repr

/-- Result of `DecisionFlowService.apply`: either an early error return
(a dict carrying an `"error"` key) or the full report. -/
inductive ApplyResult where
  | failure (error : String)
  | report (r : ApplyResponse)
deriving DecidableEq, Repr

def cautionMessage : String := "Applied with caution — review required"

/-- The `action` chosen from the compatibility score
(`decision_flow_service.py` lines 64-87). -/
def actionFor (score : Int) : String :=
  if score ≥ 75 then "safe_apply"
  else if score ≥ 40 then "selective_apply"
  else "report_only"

/-- The approved rule set built from the tier: `safe + conditional` for the
high tier, `safe` then `approved + conditional` for the medium tier
(net effect `safe ++ conditional`), empty for `report_only`. -/
def approvedFor (score : Int) (sel : RuleSelection) : List Rule :=
  if score ≥ 75 then sel.safe_rules ++ sel.conditional_rules
  else if score ≥ 40 then sel.safe_rules ++ sel.conditional_rules
  else []

/-- The warnings list built from the tier: one entry per conditional rule in
the medium tier, empty otherwise. -/
def warningsFor (score : Int) (sel : RuleSelection) : List RuleWarning :=
  if score ≥ 75 then []
  else if score ≥ 40 then
    sel.conditional_rules.map (fun r => ⟨r.rule_path, r.description, cautionMessage⟩)
  else []

/-- The failure test on the transform output (`decision_flow_service.py`
line 115): `transformed_content and "failed" in transformed_content.lower()
and len(transformed_content) < 200`. -/
def transformFailed (s : String) : Bool :=
  s ≠ "" && strContains (strToLower s) "failed" && decide (s.length < 200)

/-- Body of `DecisionFlowService.apply` after a successful rule selection:
builds `action` / `approved` / `warnings` from the score, runs the transform
phase only when `action != "report_only" and approved`, and discards a
transform output that looks failed. -/
def applyOk (text compatibility : String) (score : Int) (risk filename : String)
    (sel : RuleSelection) (transform_result : TransformResult) : ApplyResponse :=
  let action := actionFor score
  let approved := approvedFor score sel
  let warnings := warningsFor score sel
  let phase4 :=
    if action ≠ "report_only" && !approved.isEmpty then
      match transform_result with
      | .structured t d p c => (some t, d, p, c)
      | .legacy t => (some t, [], [], "")
    else (none, [], [], "")
  let transformed_content : Option String :=
    match phase4.1 with
    | some s => if transformFailed s then none else some s
    | none => none
  { action := action
    compatibility := compatibility
    score := score
    risk := risk
    rule_selection := sel
    warnings := warnings
    transformed_content := transformed_content
    original_content := text
    filename := filename
    deviations := phase4.2.1
    preserved_items := phase4.2.2.1
    change_summary := phase4.2.2.2 }

/-- `DecisionFlowService.apply` from phase 3 on: an `"error"` key in the rule
selection triggers the early error return (`decision_flow_service.py`
line 57), otherwise the full report is produced. -/
def DecisionFlowService.apply (text compatibility : String) (score : Int)
    (risk filename : String) (rule_selection : Except String RuleSelection)
    (transform_result : TransformResult) : ApplyResult :=
  match rule_selection with
  | .error e => .failure e
  | .ok sel => .report (applyOk text compatibility score risk filename sel transform_result)

/-- Whether an apply result surfaces an error (carries an `"error"` key). -/
def surfacesError : ApplyResult → Bool
  | .failure _ => true
  | .report _ => false

/-! ### Validation service (`validation_service.py`)

`ValidationService.validate_document` inspects the raw bytes through a small
number of observations: `file_content.startswith(b"%PDF-")`,
`zipfile.is_zipfile`, the archive's `namelist()`, the decoded content of the
`mimetype` entry, and the result of `odf.opendocument.load` (root `version`
attribute, the `meta.xml` fields as extracted by `_extract_metadata`, and the
style text-properties as extracted by `_extract_styles_simple`).  The
embedding records exactly those observations of the byte string. -/

/-- The observations `_validate_odf` makes of a successfully `load`ed ODF
document. -/
structure OdfDoc where
  /-- `doc.topnode.getAttribute("version")`; `none` when the attribute is
  absent (Python `None`). -/
  version : Option String
  /-- `_extract_metadata(doc)`: local name ↦ text content, as an association
  list in document order. -/
  docMetadata : List (String × String)
  /-- `_extract_styles_simple(doc)`: style name ↦ text-properties
  (`"text:<attr>" ↦ value`). -/
  docStyles : List (String × List (String × String))

/-- The observations made of the bytes as a ZIP archive. -/
structure ZipFile where
  /-- `z.namelist()`. -/
  entries : List String
  /-- `z.read("mimetype").decode("utf-8")` (only consulted when `"mimetype"`
  is in `entries`). -/
  mimetypeContent : String
  /-- `load(io.BytesIO(file_content))`: `.error e` when `load` raises with
  message `e`, `.ok doc` when it succeeds. -/
  odfLoad : Except String OdfDoc

/-- The byte string, as observed by `validate_document`. -/
structure FileContent where
  /-- `file_content.startswith(b"%PDF-")`. -/
  isPdf : Bool
  /-- `some z` iff `zipfile.is_zipfile(io.BytesIO(file_content))`. -/
  zip : Option ZipFile

/-- A style rule from `rules_json["styles"]`: `rules.get("properties", {})`. -/
structure StyleRule where
  properties : List (String × String)

/-- The parts of `standard_version.rules_json` that `validate_document`
reads: `rules_json.get("metadata", {})` and `rules_json.get("styles", {})`,
as association lists in dict insertion order. -/
structure RulesJson where
  metadata : List (String × String)
  styles : List (String × StyleRule)

/-- The validation report: `compliant`, `errors`, `warnings`, and
`details["format"]`. -/
structure Report where
  compliant : Bool
  errors : List String
  warnings : List String
  format : Option String
deriving DecidableEq, Repr

/-- Python dict lookup on an association list (first binding wins). -/
def alookup {α : Type} (m : List (String × α)) (k : String) : Option α :=
  (m.find? (fun p => p.1 == k)).map Prod.snd

/-- The Python class `ValidationService` declares no instance attributes. -/
structure ValidationService where

/-- The module-level singleton `validation_service = ValidationService()`. -/
def validation_service : ValidationService := ⟨⟩

def emptyReport : Report := ⟨true, [], [], none⟩

def pdfWarning : String :=
  "PDF documents only support metadata/format validation. Structural standards are skipped."

def docxWarning : String :=
  "Word documents (.docx) support macro detection but skip structural ODF standards."

def unsupportedError : String :=
  "Unsupported file format. Please upload ODF, PDF, or Word (.docx) files."

def odfMacrosError : String := "Macros detected. Macros are strictly forbidden."

def docxMacrosError : String := "Macros detected in Word document."

def missingFieldError (key : String) : String :=
  "Missing required metadata field: " ++ key

def metadataMismatchWarning (key expected got : String) : String :=
  "Metadata mismatch for " ++ key ++ ". Expected \x27" ++ expected ++ "\x27, got \x27"
    ++ got ++ "\x27"

def styleMismatchWarning (styleName propKey expected got : String) : String :=
  "Style \x27" ++ styleName ++ "\x27 mismatch: " ++ propKey ++ " expected \x27"
    ++ expected ++ "\x27, got \x27" ++ got ++ "\x27"

/-- Python `f"{odf_version}"`: `None` prints as `"None"`. -/
def versionStr : Option String → String
  | some v => v
  | none => "None"

/-- `ValidationService._has_macros`: any archive entry under `Basic/` or
`Scripts/`. -/
def ValidationService.hasMacros (z : ZipFile) : Bool :=
  z.entries.any (fun n => strStartsWith n "Basic/" || strStartsWith n "Scripts/")

/-- `ValidationService._has_macros_docx`: any entry containing `vbaProject`,
ending in `.vba`, or containing `macros` case-insensitively. -/
def ValidationService.hasMacrosDocx (z : ZipFile) : Bool :=
  z.entries.any (fun n =>
    strContains n "vbaProject" || strEndsWith n ".vba" || strContains (strToLower n) "macros")

/-- The version check of `_validate_odf` (lines 124-130): any version other
than `"1.2"` adds a warning and, by the (duplicated) inner check, a hard
error. -/
def versionCheck (version : Option String) (report : Report) : Report :=
  if version ≠ some "1.2" then
    { report with
      warnings := report.warnings ++
        ["Document version is \x27" ++ versionStr version ++ "\x27, expected \x271.2\x27."]
      compliant := false
      errors := report.errors ++
        ["Strict ODF 1.2 compliance failed. Found version: " ++ versionStr version] }
  else report

/-- The macro check of `_validate_odf` (lines 132-135). -/
def odfMacroCheck (z : ZipFile) (report : Report) : Report :=
  if ValidationService.hasMacros z then
    { report with compliant := false, errors := report.errors ++ [odfMacrosError] }
  else report

/-- One iteration of the metadata loop of `_validate_odf` (lines 142-153):
a key missing from the document is a hard error; a present key with a
different value is a warning only. -/
def checkMetadataKey (docMeta : List (String × String)) (report : Report)
    (kv : String × String) : Report :=
  match alookup docMeta kv.1 with
  | none =>
      { report with compliant := false
                    errors := report.errors ++ [missingFieldError kv.1] }
  | some dv =>
      if dv ≠ kv.2 then
        { report with warnings := report.warnings ++ [metadataMismatchWarning kv.1 kv.2 dv] }
      else report

/-- The metadata loop of `_validate_odf`. -/
def metadataCheck (docMeta : List (String × String)) (rulesMeta : List (String × String))
    (report : Report) : Report :=
  rulesMeta.foldl (checkMetadataKey docMeta) report

/-- One iteration of the inner property loop of `_validate_styles`
(lines 210-215): a present-but-different property value is a warning; a
missing property is ignored. -/
def checkStyleProp (styleName : String) (docProps : List (String × String))
    (report : Report) (pv : String × String) : Report :=
  match alookup docProps pv.1 with
  | some dv =>
      if dv ≠ pv.2 then
        { report with warnings := report.warnings ++ [styleMismatchWarning styleName pv.1 pv.2 dv] }
      else report
  | none => report

/-- One iteration of the outer loop of `_validate_styles` (lines 199-215):
styles absent from the document are skipped. -/
def checkStyleRule (docStyles : List (String × List (String × String)))
    (report : Report) (sr : String × StyleRule) : Report :=
  match alookup docStyles sr.1 with
  | some docProps => sr.2.properties.foldl (checkStyleProp sr.1 docProps) report
  | none => report

/-- `ValidationService._validate_styles`. -/
def validateStyles (docStyles : List (String × List (String × String)))
    (allowedStyles : List (String × StyleRule)) (report : Report) : Report :=
  allowedStyles.foldl (checkStyleRule docStyles) report

/-- `ValidationService._validate_odf`: load, version check, macro check,
metadata loop, style loop. -/
def ValidationService.validate_odf (z : ZipFile) (rules : RulesJson)
    (report : Report) : Report :=
  match z.odfLoad with
  | .error e =>
      { report with compliant := false
                    errors := report.errors ++ ["Invalid ODF file: " ++ e] }
  | .ok doc =>
      validateStyles doc.docStyles rules.styles
        (metadataCheck doc.docMetadata rules.metadata
          (odfMacroCheck z
            (versionCheck doc.version { report with format := some "ODF" })))

/-- Whether the archive is routed to the ODF validator (`validate_document`
lines 94-97): `"mimetype" in z.namelist()` and `"opendocument" in mimetype`. -/
def routedAsOdf (z : ZipFile) : Bool :=
  z.entries.contains "mimetype" && strContains z.mimetypeContent "opendocument"

/-- `ValidationService.validate_document`: format dispatch (PDF / ODF /
DOCX / unsupported) followed by the format-specific checks. -/
def ValidationService.validate_document (_svc : ValidationService)
    (fc : FileContent) (rules : RulesJson) : Report :=
  let report := emptyReport
  if fc.isPdf then
    { report with format := some "PDF", warnings := report.warnings ++ [pdfWarning] }
  else
    match fc.zip with
    | some z =>
        if routedAsOdf z then
          ValidationService.validate_odf z rules report
        else if z.entries.contains "word/document.xml" then
          let report := { report with format := some "DOCX"
                                      warnings := report.warnings ++ [docxWarning] }
          if ValidationService.hasMacrosDocx z then
            { report with compliant := false
                          errors := report.errors ++ [docxMacrosError] }
          else report
        else
          { report with compliant := false
                        errors := report.errors ++ [unsupportedError] }
    | none =>
        { report with compliant := false
                      errors := report.errors ++ [unsupportedError] }

/-! ### Data model and database state (`models/standard.py`,
`models/folder_document.py`)

UUIDs are embedded as `Nat`.  The database state records the three tables
the resolver and the assignment operations touch: `folder` (id ↦ parent_id),
`document` (id ↦ folder_id), `standardassignment`, plus the set of existing
`standardversion` ids (so that `db.get(StandardVersion, vid)` can be
embedded faithfully). -/

inductive TargetType where
  | FOLDER
  | DOCUMENT
deriving DecidableEq, Repr

structure StandardAssignment where
  target_id : Nat
  target_type : TargetType
  standard_version_id : Nat
deriving DecidableEq, Repr

/-- Lookup in a table keyed by `Nat` id. -/
def nlookup {α : Type} (m : List (Nat × α)) (k : Nat) : Option α :=
  (m.find? (fun p => p.1 == k)).map Prod.snd

structure Db where
  /-- `folder` table: id ↦ `parent_id` (nullable). -/
  folders : List (Nat × Option Nat)
  /-- `document` table: id ↦ `folder_id` (nullable). -/
  documents : List (Nat × Option Nat)
  /-- `standardassignment` table, in insertion order. -/
  assignments : List StandardAssignment
  /-- ids present in the `standardversion` table. -/
  versions : List Nat
deriving DecidableEq, Repr

/-- `select(StandardAssignment).where(target_id == tid, target_type == tt)`
followed by `.scalars().first()`. -/
def findAssignment (db : Db) (tid : Nat) (tt : TargetType) : Option StandardAssignment :=
  db.assignments.find? (fun a => a.target_id == tid && decide (a.target_type = tt))

/-- `db.get(StandardVersion, vid)`, reduced to the version id: `some vid`
when the row exists, `none` otherwise. -/
def getVersion (db : Db) (vid : Nat) : Option Nat :=
  if db.versions.contains vid then some vid else none

/-! ### Inheritance resolver (`inheritance_service.py`)

The `while current_folder_id:` loop of `get_effective_standard_version` is
embedded with explicit fuel: `none` means the loop is still running after
`fuel` iterations (the Python loop has no depth bound or visited set, so on
a cyclic `parent_id` chain it never finishes); `some r` means the Python
function returned `r`. -/

/-- The ancestor walk (`inheritance_service.py` lines 45-63).  One unit of
fuel is one loop iteration. -/
def walkAncestors (db : Db) (fuel : Nat) (start : Option Nat) : Option (Option Nat) :=
  match start with
  | none => some none
  | some fid =>
      match fuel with
      | 0 => none
      | fuel' + 1 =>
          match findAssignment db fid .FOLDER with
          | some a => some (getVersion db a.standard_version_id)
          | none =>
              match nlookup db.folders fid with
              | none => some none
              | some parent => walkAncestors db fuel' parent

/-- The starting folder of the ancestor walk (lines 32-43): a document's
`folder_id`, a folder's `parent_id`; `none` when the row is missing or the
field is null. -/
def startFolder (db : Db) (target_id : Nat) (target_type : TargetType) : Option Nat :=
  match target_type with
  | .DOCUMENT =>
      match nlookup db.documents target_id with
      | some (some fid) => some fid
      | _ => none
  | .FOLDER =>
      match nlookup db.folders target_id with
      | some p => p
      | none => none

/-- `InheritanceService.get_effective_standard_version`: direct assignment
first, then the ancestor walk.  `none` means the walk was still running
after `fuel` iterations. -/
def get_effective_standard_version (db : Db) (fuel : Nat) (target_id : Nat)
    (target_type : TargetType) : Option (Option Nat) :=
  match findAssignment db target_id target_type with
  | some a => some (getVersion db a.standard_version_id)
  | none => walkAncestors db fuel (startFolder db target_id target_type)

/-- The chain of ancestor folders visited by the walk, truncated at `fuel`
links: the start folder, then parents upward, stopping at a null parent or
a missing folder row. -/
def ancestorChain (db : Db) (fuel : Nat) (start : Option Nat) : List Nat :=
  match start with
  | none => []
  | some fid =>
      match fuel with
      | 0 => []
      | fuel' + 1 =>
          fid :: (match nlookup db.folders fid with
                  | none => []
                  | some parent => ancestorChain db fuel' parent)

/-- Modelled from the spec: "`resolve` returns the assignment on the
*nearest* ancestor (including self)" — the first folder of the ancestor
chain carrying a FOLDER-type assignment. -/
def firstFolderHit (db : Db) : List Nat → Option Nat
  | [] => none
  | f :: rest =>
      match findAssignment db f .FOLDER with
      | some a => getVersion db a.standard_version_id
      | none => firstFolderHit db rest

/-- Modelled from the spec: direct assignment wins, otherwise the nearest
ancestor folder with a FOLDER-type assignment, otherwise NOT_FOUND. -/
def specResolve (db : Db) (fuel : Nat) (target_id : Nat)
    (target_type : TargetType) : Option Nat :=
  match findAssignment db target_id target_type with
  | some a => getVersion db a.standard_version_id
  | none => firstFolderHit db (ancestorChain db fuel (startFolder db target_id target_type))

/-! ### Assignment operations (`assignments.py`, `standard_service.py`) -/

/-- Mutate the first row matching `(tid, tt)` to point at `vid`
(`existing.standard_version_id = standard_version_id` on the row returned by
`.first()`). -/
def updateFirstAssignment (tid : Nat) (tt : TargetType) (vid : Nat) :
    List StandardAssignment → List StandardAssignment
  | [] => []
  | a :: rest =>
      if a.target_id == tid && decide (a.target_type = tt) then
        { a with standard_version_id := vid } :: rest
      else a :: updateFirstAssignment tid tt vid rest

/-- The `assign_standard` endpoint (`assignments.py` lines 28-45): look up
the existing assignment by `(target_id, target_type)`; update it when found,
insert a new row otherwise. -/
def assign_standard (db : Db) (target_id : Nat) (target_type : TargetType)
    (standard_version_id : Nat) : Db :=
  match findAssignment db target_id target_type with
  | some _ =>
      { db with assignments := updateFirstAssignment target_id target_type
                                 standard_version_id db.assignments }
  | none =>
      { db with assignments := db.assignments ++
          [⟨target_id, target_type, standard_version_id⟩] }

/-- The existing-row query of `StandardService.apply_to_document`
(`standard_service.py` lines 35-42): note that it also filters on
`standard_version_id`. -/
def findAssignmentWithVersion (db : Db) (tid : Nat) (tt : TargetType) (vid : Nat) :
    Option StandardAssignment :=
  db.assignments.find? (fun a =>
    a.target_id == tid && decide (a.target_type = tt) && a.standard_version_id == vid)

/-- `StandardService.apply_to_document` (assignment-table effect only):
when a row with the exact `(document_id, DOCUMENT, standard_version_id)`
triple exists, nothing is written; otherwise a new row is inserted. -/
def apply_to_document (db : Db) (standard_version_id : Nat) (document_id : Nat) : Db :=
  match findAssignmentWithVersion db document_id .DOCUMENT standard_version_id with
  | some _ => db
  | none =>
      { db with assignments := db.assignments ++
          [⟨document_id, .DOCUMENT, standard_version_id⟩] }

/-- The number of assignment rows for a target. -/
def assignmentCount (db : Db) (tid : Nat) (tt : TargetType) : Nat :=
  (db.assignments.filter (fun a => a.target_id == tid && decide (a.target_type = tt))).length

/-- The at-most-one-assignment-per-target invariant. -/
def AtMostOnePerTarget (db : Db) : Prop :=
  ∀ tid tt, assignmentCount db tid tt ≤ 1

/-! ## Theorems -/

/-! ### Decision-flow gating (C1, C8) -/

theorem actionFor_high {score : Int} (h : score ≥ 75) : actionFor score = "safe_apply" := by
  unfold actionFor; rw [if_pos h]

theorem actionFor_mid {score : Int} (h1 : 40 ≤ score) (h2 : score < 75) :
    actionFor score = "selective_apply" := by
  unfold actionFor; rw [if_neg (by omega), if_pos (by omega)]

theorem actionFor_low {score : Int} (h : score < 40) : actionFor score = "report_only" := by
  unfold actionFor; rw [if_neg (by omega), if_neg (by omega)]

theorem approvedFor_high {score : Int} (h : score ≥ 75) (sel : RuleSelection) :
    approvedFor score sel = sel.safe_rules ++ sel.conditional_rules := by
  unfold approvedFor; rw [if_pos h]

theorem approvedFor_mid {score : Int} (h1 : 40 ≤ score) (h2 : score < 75) (sel : RuleSelection) :
    approvedFor score sel = sel.safe_rules ++ sel.conditional_rules := by
  unfold approvedFor; rw [if_neg (by omega), if_pos (by omega)]

theorem approvedFor_low {score : Int} (h : score < 40) (sel : RuleSelection) :
    approvedFor score sel = [] := by
  unfold approvedFor; rw [if_neg (by omega), if_neg (by omega)]

theorem warningsFor_high {score : Int} (h : score ≥ 75) (sel : RuleSelection) :
    warningsFor score sel = [] := by
  unfold warningsFor; rw [if_pos h]

theorem warningsFor_mid {score : Int} (h1 : 40 ≤ score) (h2 : score < 75) (sel : RuleSelection) :
    warningsFor score sel
      = sel.conditional_rules.map (fun r => ⟨r.rule_path, r.description, cautionMessage⟩) := by
  unfold warningsFor; rw [if_neg (by omega), if_pos (by omega)]

theorem warningsFor_low {score : Int} (h : score < 40) (sel : RuleSelection) :
    warningsFor score sel = [] := by
  unfold warningsFor; rw [if_neg (by omega), if_neg (by omega)]

theorem applyOk_action (text compat : String) (score : Int) (risk fn : String)
    (sel : RuleSelection) (tr : TransformResult) :
    (applyOk text compat score risk fn sel tr).action = actionFor score := rfl

theorem applyOk_warnings (text compat : String) (score : Int) (risk fn : String)
    (sel : RuleSelection) (tr : TransformResult) :
    (applyOk text compat score risk fn sel tr).warnings = warningsFor score sel := rfl

/-- With a score below 40 the transform phase is skipped: the transform
oracle is never consulted and `transformed_content` stays `None`. -/
theorem applyOk_report_only (text compat : String) {score : Int} (risk fn : String)
    (sel : RuleSelection) (tr tr' : TransformResult) (h : score < 40) :
    applyOk text compat score risk fn sel tr = applyOk text compat score risk fn sel tr'
    ∧ (applyOk text compat score risk fn sel tr).transformed_content = none := by
  unfold applyOk
  simp only [actionFor_low h, approvedFor_low h]
  simp

/-- C1: `DecisionFlowService.apply` gates the action by fixed thresholds.
Score ≥ 75 yields `safe_apply` with approved set `safe ++ conditional` and
no warnings; 40 ≤ score < 75 yields `selective_apply` with the same approved
set and exactly one warning per conditional rule; score < 40 yields
`report_only` with an empty approved set, the transform phase skipped and
`transformed_content` null; and (on the spec's partition assumption that
forbidden rules are disjoint from safe and conditional ones) no forbidden
rule is ever in the approved set passed to the transform phase. -/
theorem C1_decision_gating (text compat : String) (score : Int) (risk fn : String)
    (sel : RuleSelection) (tr tr' : TransformResult)
    (hdisj : ∀ r ∈ sel.forbidden_rules, r ∉ sel.safe_rules ∧ r ∉ sel.conditional_rules) :
    DecisionFlowService.apply text compat score risk fn (Except.ok sel) tr
        = ApplyResult.report (applyOk text compat score risk fn sel tr)
    ∧ (score ≥ 75 →
        (applyOk text compat score risk fn sel tr).action = "safe_apply"
        ∧ approvedFor score sel = sel.safe_rules ++ sel.conditional_rules
        ∧ (applyOk text compat score risk fn sel tr).warnings = [])
    ∧ (40 ≤ score → score < 75 →
        (applyOk text compat score risk fn sel tr).action = "selective_apply"
        ∧ approvedFor score sel = sel.safe_rules ++ sel.conditional_rules
        ∧ (applyOk text compat score risk fn sel tr).warnings
            = sel.conditional_rules.map (fun r => ⟨r.rule_path, r.description, cautionMessage⟩))
    ∧ (score < 40 →
        (applyOk text compat score risk fn sel tr).action = "report_only"
        ∧ approvedFor score sel = []
        ∧ (applyOk text compat score risk fn sel tr).transformed_content = none
        ∧ applyOk text compat score risk fn sel tr = applyOk text compat score risk fn sel tr')
    ∧ (∀ r ∈ sel.forbidden_rules, r ∉ approvedFor score sel) := by
  refine ⟨rfl, ?_, ?_, ?_, ?_⟩
  · intro h75
    exact ⟨by rw [applyOk_action, actionFor_high h75], approvedFor_high h75 sel,
      by rw [applyOk_warnings, warningsFor_high h75]⟩
  · intro h40 h75
    exact ⟨by rw [applyOk_action, actionFor_mid h40 h75], approvedFor_mid h40 h75 sel,
      by rw [applyOk_warnings, warningsFor_mid h40 h75]⟩
  · intro h40
    exact ⟨by rw [applyOk_action, actionFor_low h40], approvedFor_low h40 sel,
      (applyOk_report_only text compat risk fn sel tr tr' h40).2,
      (applyOk_report_only text compat risk fn sel tr tr' h40).1⟩
  · intro r hr hmem
    rcases hdisj r hr with ⟨hs, hc⟩
    by_cases h75 : score ≥ 75
    · rw [approvedFor_high h75] at hmem
      rcases List.mem_append.mp hmem with h | h
      · exact hs h
      · exact hc h
    · by_cases h40 : score ≥ 40
      · rw [approvedFor_mid h40 (by omega)] at hmem
        rcases List.mem_append.mp hmem with h | h
        · exact hs h
        · exact hc h
      · rw [approvedFor_low (by omega)] at hmem
        exact (List.not_mem_nil r) hmem

/-- A concrete rule selection used for witnesses: one safe, one conditional
and one forbidden rule, pairwise distinct. -/
def selSample : RuleSelection :=
  ⟨[⟨"structure.headings", "Use numbered headings"⟩],
   [⟨"language.tone", "Neutral tone"⟩],
   [⟨"legal.liability", "Liability clause"⟩]⟩

/-- Witness for C1 at score 80: the action is `safe_apply` and the forbidden
rule is not in the approved set. -/
theorem C1_decision_gating_witness :
    (applyOk "doc text" "compat" 80 "LOW" "a.odt" selSample (.legacy "out")).action = "safe_apply"
    ∧ Rule.mk "legal.liability" "Liability clause" ∉ approvedFor 80 selSample := by
  have h := C1_decision_gating "doc text" "compat" 80 "LOW" "a.odt" selSample
    (.legacy "out") (.legacy "out") (by decide)
  exact ⟨(h.2.1 (by decide)).1, h.2.2.2.2 _ (by decide)⟩

/-- If the approved set is non-empty the score is at least 40 and the action
is not `report_only`. -/
theorem actionFor_ne_report_only {score : Int} (sel : RuleSelection)
    (happ : approvedFor score sel ≠ []) :
    40 ≤ score ∧ actionFor score ≠ "report_only" := by
  have h40 : (40:Int) ≤ score := by
    by_contra h
    exact happ (approvedFor_low (by omega) sel)
  refine ⟨h40, ?_⟩
  by_cases h75 : score ≥ 75
  · rw [actionFor_high h75]; decide
  · rw [actionFor_mid h40 (by omega)]; decide

/-- A failed-looking transform output is discarded: `transformed_content`
ends up `None`. -/
theorem applyOk_transform_failed (text compat : String) (score : Int) (risk fn : String)
    (sel : RuleSelection) (s : String) (devs pres : List String) (cs : String)
    (happ : approvedFor score sel ≠ []) (hfail : transformFailed s = true) :
    (applyOk text compat score risk fn sel (.structured s devs pres cs)).transformed_content
      = none := by
  obtain ⟨-, hact⟩ := actionFor_ne_report_only sel happ
  have hcond : (decide (actionFor score ≠ "report_only")
      && !(approvedFor score sel).isEmpty) = true := by
    cases hap : approvedFor score sel with
    | nil => exact absurd hap happ
    | cons a l => simp [hact]
  simp only [applyOk, hcond]
  simp [hfail]

/-- C8 (amended): a short transform output containing a failure marker is
discarded (`transformed_content = None`) and the already-computed report
fields are preserved; the result is the plain report — no error is added to
the response (the original claim's "an error is surfaced" fails; see the
counterexample). -/
theorem C8_failed_transform (text compat : String) (score : Int) (risk fn : String)
    (sel : RuleSelection) (s : String) (devs pres : List String) (cs : String)
    (happ : approvedFor score sel ≠ []) (hfail : transformFailed s = true) :
    (applyOk text compat score risk fn sel (.structured s devs pres cs)).transformed_content = none
    ∧ (applyOk text compat score risk fn sel (.structured s devs pres cs)).action = actionFor score
    ∧ (applyOk text compat score risk fn sel (.structured s devs pres cs)).compatibility = compat
    ∧ (applyOk text compat score risk fn sel (.structured s devs pres cs)).score = score
    ∧ (applyOk text compat score risk fn sel (.structured s devs pres cs)).risk = risk
    ∧ (applyOk text compat score risk fn sel (.structured s devs pres cs)).rule_selection = sel
    ∧ (applyOk text compat score risk fn sel (.structured s devs pres cs)).warnings
        = warningsFor score sel
    ∧ DecisionFlowService.apply text compat score risk fn (Except.ok sel) (.structured s devs pres cs)
        = ApplyResult.report (applyOk text compat score risk fn sel (.structured s devs pres cs)) :=
  ⟨applyOk_transform_failed text compat score risk fn sel s devs pres cs happ hfail,
   rfl, rfl, rfl, rfl, rfl, rfl, rfl⟩

/-- A concrete failed transform output: short and containing `failed`. -/
def failedTransformSample : TransformResult := .structured "Transformation failed" [] [] ""

/-- Witness for C8 (amended) at a concrete failed transform. -/
theorem C8_failed_transform_witness :
    (applyOk "doc text" "compat" 80 "LOW" "a.odt" selSample failedTransformSample).transformed_content
        = none
    ∧ (applyOk "doc text" "compat" 80 "LOW" "a.odt" selSample failedTransformSample).action
        = actionFor 80 := by
  have h := C8_failed_transform "doc text" "compat" 80 "LOW" "a.odt" selSample
    "Transformation failed" [] [] "" (by decide) (by decide)
  exact ⟨h.1, h.2.1⟩

/-- Counterexample to C8 as stated: at a concrete failed transform the
response is the plain report — `surfacesError` is `false`, i.e. no error is
surfaced in the returned report, contradicting the claim; the content is
nevertheless discarded. -/
theorem C8_counterexample :
    transformFailed "Transformation failed" = true
    ∧ approvedFor 80 selSample ≠ []
    ∧ surfacesError (DecisionFlowService.apply "doc text" "compat" 80 "LOW" "a.odt"
        (Except.ok selSample) failedTransformSample) = false
    ∧ (applyOk "doc text" "compat" 80 "LOW" "a.odt" selSample
        failedTransformSample).transformed_content = none := by
  exact ⟨by decide, by decide, rfl, by decide⟩

/-! ### Purity of the deterministic validator (C9) -/

/-- C9: the deterministic `validate_document` is pure — the `ValidationService`
object carries no state (the class declares no instance attributes), so two
calls on identical `(bytes, rules)` observations return identical reports. -/
theorem C9_validate_pure (s1 s2 : ValidationService) (fc1 fc2 : FileContent)
    (r1 r2 : RulesJson) (hfc : fc1 = fc2) (hr : r1 = r2) :
    ValidationService.validate_document s1 fc1 r1
      = ValidationService.validate_document s2 fc2 r2 := by
  cases s1; cases s2; rw [hfc, hr]

/-- Witness for C9 at a concrete input. -/
theorem C9_validate_pure_witness :
    ValidationService.validate_document validation_service ⟨false, none⟩ ⟨[], []⟩
      = ValidationService.validate_document ⟨⟩ ⟨false, none⟩ ⟨[], []⟩ :=
  C9_validate_pure validation_service ⟨⟩ ⟨false, none⟩ ⟨false, none⟩ ⟨[], []⟩ ⟨[], []⟩ rfl rfl

/-! ### Report invariants of the deterministic validator (C10, C7, C6, C3) -/

/-- A predicate preserved by every step of a fold is preserved by the fold. -/
theorem foldl_preserve {α β : Type} (f : β → α → β) (P : β → Prop)
    (hf : ∀ b a, P b → P (f b a)) :
    ∀ (l : List α) (b : β), P b → P (l.foldl f b)
  | [], _, hb => hb
  | a :: l, b, hb => foldl_preserve f P hf l (f b a) (hf b a hb)

/-- A predicate established by the step at some list element and preserved by
every step holds after the fold. -/
theorem foldl_establish {α β : Type} (f : β → α → β) (P : β → Prop) (x : α)
    (hx : ∀ b, P (f b x)) (hf : ∀ b a, P b → P (f b a)) :
    ∀ (l : List α) (b : β), x ∈ l → P (l.foldl f b) := by
  intro l
  induction l with
  | nil => intro b h; cases h
  | cons a l ih =>
      intro b hmem
      rcases List.mem_cons.mp hmem with rfl | h
      · exact foldl_preserve f P hf l (f b x) (hx b)
      · exact ih (f b a) h

/-- The invariant claimed by C10: `compliant` is `true` exactly when the
error list is empty. -/
def reportInv (r : Report) : Prop := r.compliant = true ↔ r.errors = []

/-- A recorded hard failure: `compliant` is `false` and the message is among
the errors. -/
def hardFailure (msg : String) (r : Report) : Prop :=
  r.compliant = false ∧ msg ∈ r.errors

theorem checkMetadataKey_inv (dm : List (String × String)) (r : Report)
    (kv : String × String) (h : reportInv r) :
    reportInv (checkMetadataKey dm r kv) := by
  unfold checkMetadataKey
  rcases alookup dm kv.1 with _ | dv
  · simp only [reportInv]
    simp
  · by_cases hv : dv ≠ kv.2 <;> simp only [reportInv] at * <;> simp [hv, h]

theorem checkMetadataKey_hard (dm : List (String × String)) (msg : String)
    (r : Report) (kv : String × String) (h : hardFailure msg r) :
    hardFailure msg (checkMetadataKey dm r kv) := by
  unfold checkMetadataKey
  rcases alookup dm kv.1 with _ | dv
  · exact ⟨rfl, List.mem_append_left _ h.2⟩
  · dsimp only
    by_cases hv : dv ≠ kv.2
    · rw [if_pos hv]
      exact ⟨h.1, h.2⟩
    · rw [if_neg hv]
      exact h

/-- A rule key absent from the document's metadata makes the loop step record
a hard failure, whatever the incoming report. -/
theorem checkMetadataKey_missing (dm : List (String × String)) (k v : String)
    (habs : alookup dm k = none) (r : Report) :
    hardFailure (missingFieldError k) (checkMetadataKey dm r (k, v)) := by
  unfold checkMetadataKey
  rw [habs]
  exact ⟨rfl, List.mem_append_right _ (List.mem_singleton.mpr rfl)⟩

/-- A rule key present with a different value makes the loop step append a
warning and touch nothing else. -/
theorem checkMetadataKey_mismatch (dm : List (String × String)) (k v dv : String)
    (hdv : alookup dm k = some dv) (hne : dv ≠ v) (r : Report) :
    checkMetadataKey dm r (k, v)
      = { r with warnings := r.warnings ++ [metadataMismatchWarning k v dv] } := by
  unfold checkMetadataKey
  rw [hdv]
  simp [hne]

/-- A rule key present with the expected value leaves the report unchanged. -/
theorem checkMetadataKey_match (dm : List (String × String)) (k v : String)
    (hdv : alookup dm k = some v) (r : Report) :
    checkMetadataKey dm r (k, v) = r := by
  unfold checkMetadataKey
  rw [hdv]
  simp

theorem checkStyleProp_fields (sn : String) (dp : List (String × String))
    (r : Report) (pv : String × String) :
    (checkStyleProp sn dp r pv).compliant = r.compliant
    ∧ (checkStyleProp sn dp r pv).errors = r.errors := by
  unfold checkStyleProp
  rcases alookup dp pv.1 with _ | dv
  · exact ⟨rfl, rfl⟩
  · by_cases hv : dv ≠ pv.2 <;> simp [hv]

theorem checkStyleRule_fields (ds : List (String × List (String × String)))
    (r : Report) (sr : String × StyleRule) :
    (checkStyleRule ds r sr).compliant = r.compliant
    ∧ (checkStyleRule ds r sr).errors = r.errors := by
  unfold checkStyleRule
  rcases alookup ds sr.1 with _ | dp
  · exact ⟨rfl, rfl⟩
  · exact foldl_preserve _
      (fun b => b.compliant = r.compliant ∧ b.errors = r.errors)
      (fun b a hb => by
        obtain ⟨h1, h2⟩ := checkStyleProp_fields sr.1 dp b a
        exact ⟨h1.trans hb.1, h2.trans hb.2⟩)
      sr.2.properties r ⟨rfl, rfl⟩

/-- `_validate_styles` appends warnings only: `compliant` and `errors` are
untouched. -/
theorem validateStyles_fields (ds : List (String × List (String × String)))
    (allowed : List (String × StyleRule)) (r : Report) :
    (validateStyles ds allowed r).compliant = r.compliant
    ∧ (validateStyles ds allowed r).errors = r.errors := by
  unfold validateStyles
  exact foldl_preserve _
    (fun b => b.compliant = r.compliant ∧ b.errors = r.errors)
    (fun b a hb => by
      obtain ⟨h1, h2⟩ := checkStyleRule_fields ds b a
      exact ⟨h1.trans hb.1, h2.trans hb.2⟩)
    allowed r ⟨rfl, rfl⟩

theorem versionCheck_inv (v : Option String) (r : Report) (h : reportInv r) :
    reportInv (versionCheck v r) := by
  unfold versionCheck
  by_cases hv : v ≠ some "1.2" <;> simp only [reportInv] at * <;> simp [hv, h]

theorem versionCheck_hard (v : Option String) (msg : String) (r : Report)
    (h : hardFailure msg r) : hardFailure msg (versionCheck v r) := by
  unfold versionCheck
  by_cases hv : v ≠ some "1.2"
  · rw [if_pos hv]
    exact ⟨rfl, List.mem_append_left _ h.2⟩
  · rw [if_neg hv]
    exact h

theorem odfMacroCheck_inv (z : ZipFile) (r : Report) (h : reportInv r) :
    reportInv (odfMacroCheck z r) := by
  unfold odfMacroCheck
  by_cases hm : ValidationService.hasMacros z <;> simp only [reportInv] at * <;> simp [hm, h]

theorem odfMacroCheck_hard (z : ZipFile) (msg : String) (r : Report)
    (h : hardFailure msg r) : hardFailure msg (odfMacroCheck z r) := by
  unfold odfMacroCheck
  by_cases hm : ValidationService.hasMacros z = true
  · rw [if_pos hm]
    exact ⟨rfl, List.mem_append_left _ h.2⟩
  · rw [if_neg hm]
    exact h

/-- A macro-indicating entry makes the ODF macro check record a hard
failure, whatever the incoming report. -/
theorem odfMacroCheck_detect (z : ZipFile) (hm : ValidationService.hasMacros z = true)
    (r : Report) : hardFailure odfMacrosError (odfMacroCheck z r) := by
  unfold odfMacroCheck
  rw [if_pos hm]
  exact ⟨rfl, List.mem_append_right _ (List.mem_singleton.mpr rfl)⟩

theorem metadataCheck_inv (dm rm : List (String × String)) (r : Report)
    (h : reportInv r) : reportInv (metadataCheck dm rm r) :=
  foldl_preserve _ reportInv (checkMetadataKey_inv dm) rm r h

theorem metadataCheck_hard (dm rm : List (String × String)) (msg : String)
    (r : Report) (h : hardFailure msg r) : hardFailure msg (metadataCheck dm rm r) :=
  foldl_preserve _ (hardFailure msg) (checkMetadataKey_hard dm msg) rm r h

theorem metadataCheck_missing (dm rm : List (String × String)) (k v : String)
    (hmem : (k, v) ∈ rm) (habs : alookup dm k = none) (r : Report) :
    hardFailure (missingFieldError k) (metadataCheck dm rm r) :=
  foldl_establish _ (hardFailure (missingFieldError k)) (k, v)
    (checkMetadataKey_missing dm k v habs)
    (checkMetadataKey_hard dm (missingFieldError k)) rm r hmem

/-- `_validate_odf` preserves the compliant-iff-no-errors invariant. -/
theorem validate_odf_inv (z : ZipFile) (rules : RulesJson) (r : Report)
    (h : reportInv r) : reportInv (ValidationService.validate_odf z rules r) := by
  unfold ValidationService.validate_odf
  rcases z.odfLoad with e | doc
  · unfold reportInv
    simp
  · have h0 : reportInv (⟨r.compliant, r.errors, r.warnings, some "ODF"⟩ : Report) := h
    have h1 := versionCheck_inv doc.version _ h0
    have h2 := odfMacroCheck_inv z _ h1
    have h3 := metadataCheck_inv doc.docMetadata rules.metadata _ h2
    have h4 := validateStyles_fields doc.docStyles rules.styles
      (metadataCheck doc.docMetadata rules.metadata
        (odfMacroCheck z (versionCheck doc.version ⟨r.compliant, r.errors, r.warnings, some "ODF"⟩)))
    unfold reportInv at h3 ⊢
    rw [h4.1, h4.2]
    exact h3

/-- C10: in every report the deterministic `validate_document` produces,
`compliant = true` holds exactly when the error list is empty — every path
that appends an error also sets `compliant` to `false`, and warnings never
change `compliant`. -/
theorem C10_compliant_iff_no_errors (fc : FileContent) (rules : RulesJson) :
    (ValidationService.validate_document validation_service fc rules).compliant = true
      ↔ (ValidationService.validate_document validation_service fc rules).errors = [] := by
  unfold ValidationService.validate_document
  by_cases hpdf : fc.isPdf = true
  · rw [if_pos hpdf]
    simp [emptyReport]
  · rw [if_neg hpdf]
    rcases fc.zip with _ | z
    · simp [emptyReport]
    · simp only
      by_cases hodf : routedAsOdf z = true
      · rw [if_pos hodf]
        exact validate_odf_inv z rules emptyReport (by simp [reportInv, emptyReport])
      · rw [if_neg hodf]
        by_cases hword : z.entries.contains "word/document.xml" = true
        · rw [if_pos hword]
          by_cases hm : ValidationService.hasMacrosDocx z = true
          · rw [if_pos hm]
            simp [emptyReport]
          · rw [if_neg hm]
            simp [emptyReport]
        · rw [if_neg hword]
          simp [emptyReport]

/-- C7: in ODF validation a metadata rule key absent from the document is a
hard failure (`compliant = false` plus an error naming the field), while a
present-but-mismatched value only appends a warning, leaving `compliant` and
`errors` untouched; a matching value changes nothing. -/
theorem C7_metadata_error_vs_warning (z : ZipFile) (doc : OdfDoc) (rules : RulesJson)
    (k v : String) (hload : z.odfLoad = Except.ok doc) :
    ((k, v) ∈ rules.metadata → alookup doc.docMetadata k = none →
      (ValidationService.validate_odf z rules emptyReport).compliant = false
      ∧ missingFieldError k ∈ (ValidationService.validate_odf z rules emptyReport).errors)
    ∧ (∀ dv r, alookup doc.docMetadata k = some dv → dv ≠ v →
        checkMetadataKey doc.docMetadata r (k, v)
          = { r with warnings := r.warnings ++ [metadataMismatchWarning k v dv] })
    ∧ (∀ r, alookup doc.docMetadata k = some v →
        checkMetadataKey doc.docMetadata r (k, v) = r) := by
  refine ⟨?_, ?_, ?_⟩
  · intro hmem habs
    unfold ValidationService.validate_odf
    rw [hload]
    have hmeta := metadataCheck_missing doc.docMetadata rules.metadata k v hmem habs
      (odfMacroCheck z (versionCheck doc.version { emptyReport with format := some "ODF" }))
    have hstyles := validateStyles_fields doc.docStyles rules.styles
      (metadataCheck doc.docMetadata rules.metadata
        (odfMacroCheck z (versionCheck doc.version { emptyReport with format := some "ODF" })))
    rw [hstyles.1, hstyles.2]
    exact hmeta
  · intro dv r hdv hne
    exact checkMetadataKey_mismatch doc.docMetadata k v dv hdv hne r
  · intro r hdv
    exact checkMetadataKey_match doc.docMetadata k v hdv r

/-- An ODF text document with no metadata fields: version `1.2`, empty
`meta.xml`, no styles, no macro entries. -/
def emptyMetaDoc : OdfDoc := ⟨some "1.2", [], []⟩

def emptyMetaZip : ZipFile :=
  ⟨["mimetype", "content.xml", "meta.xml", "styles.xml"],
   "application/vnd.oasis.opendocument.text", .ok emptyMetaDoc⟩

def emptyMetaOdt : FileContent := ⟨false, some emptyMetaZip⟩

/-- A standard whose `rules_json.metadata` equals `{"title": "X"}`. -/
def titleRules : RulesJson := ⟨[("title", "X")], []⟩

/-- A standard with no metadata and no style rules. -/
def noRules : RulesJson := ⟨[], []⟩

/-- Witness for C7: the concrete ODF document with empty metadata fails the
`title` rule hard. -/
theorem C7_metadata_error_vs_warning_witness :
    (ValidationService.validate_odf emptyMetaZip titleRules emptyReport).compliant = false
    ∧ missingFieldError "title"
        ∈ (ValidationService.validate_odf emptyMetaZip titleRules emptyReport).errors :=
  (C7_metadata_error_vs_warning emptyMetaZip emptyMetaDoc titleRules "title" "X" rfl).1
    (by decide) (by decide)

/-- With a successfully loaded ODF document, a macro-indicating entry forces
a hard macro failure regardless of the version, metadata and style outcomes. -/
theorem validate_odf_macros (z : ZipFile) (rules : RulesJson) (r : Report) (doc : OdfDoc)
    (hload : z.odfLoad = Except.ok doc) (hm : ValidationService.hasMacros z = true) :
    hardFailure odfMacrosError (ValidationService.validate_odf z rules r) := by
  unfold ValidationService.validate_odf
  rw [hload]
  dsimp only
  have h1 := odfMacroCheck_detect z hm
    (versionCheck doc.version ⟨r.compliant, r.errors, r.warnings, some "ODF"⟩)
  have h2 := metadataCheck_hard doc.docMetadata rules.metadata odfMacrosError _ h1
  have h4 := validateStyles_fields doc.docStyles rules.styles
    (metadataCheck doc.docMetadata rules.metadata
      (odfMacroCheck z (versionCheck doc.version ⟨r.compliant, r.errors, r.warnings, some "ODF"⟩)))
  exact ⟨h4.1.trans h2.1, h4.2 ▸ h2.2⟩

/-- C6 (amended): a macro-indicating archive entry forces `compliant = false`
with a macro error for every document that reaches format-specific
validation — an ODF archive whose `load` succeeded, or a recognized Word
package.  (The original unconditional claim fails when the ODF `load`
raises; see the counterexample.) -/
theorem C6_macros_force_noncompliance (fc : FileContent) (z : ZipFile) (rules : RulesJson) :
    (∀ doc, fc.isPdf = false → fc.zip = some z → routedAsOdf z = true →
      z.odfLoad = Except.ok doc → ValidationService.hasMacros z = true →
      (ValidationService.validate_document validation_service fc rules).compliant = false
      ∧ odfMacrosError ∈ (ValidationService.validate_document validation_service fc rules).errors)
    ∧ (fc.isPdf = false → fc.zip = some z → routedAsOdf z = false →
      z.entries.contains "word/document.xml" = true →
      ValidationService.hasMacrosDocx z = true →
      (ValidationService.validate_document validation_service fc rules).compliant = false
      ∧ docxMacrosError ∈ (ValidationService.validate_document validation_service fc rules).errors) := by
  constructor
  · intro doc hpdf hzip hodf hload hm
    unfold ValidationService.validate_document
    rw [if_neg (by rw [hpdf]; exact Bool.false_ne_true), hzip]
    dsimp only
    rw [if_pos hodf]
    exact validate_odf_macros z rules emptyReport doc hload hm
  · intro hpdf hzip hodf hword hm
    unfold ValidationService.validate_document
    rw [if_neg (by rw [hpdf]; exact Bool.false_ne_true), hzip]
    dsimp only
    rw [if_neg (by rw [hodf]; exact Bool.false_ne_true), if_pos hword]
    rw [if_pos hm]
    exact ⟨rfl, by simp [emptyReport]⟩

/-- An ODF text document carrying a `Basic/` macro entry whose `load`
succeeds. -/
def macroOdtDoc : OdfDoc := ⟨some "1.2", [("title", "X")], []⟩

def macroOdtZip : ZipFile :=
  ⟨["mimetype", "content.xml", "Basic/Standard/Module1.xml"],
   "application/vnd.oasis.opendocument.text", .ok macroOdtDoc⟩

def macroOdt : FileContent := ⟨false, some macroOdtZip⟩

/-- Witness for C6 (amended) on a concrete loadable ODF document with a
`Basic/` entry. -/
theorem C6_macros_force_noncompliance_witness :
    (ValidationService.validate_document validation_service macroOdt noRules).compliant = false
    ∧ odfMacrosError
        ∈ (ValidationService.validate_document validation_service macroOdt noRules).errors :=
  (C6_macros_force_noncompliance macroOdt macroOdtZip noRules).1 macroOdtDoc
    rfl rfl (by decide) rfl (by decide)

/-- An archive with the opendocument mimetype and a `Basic/` macro entry on
which `odf.opendocument.load` raises (e.g. the archive has no parsable
`content.xml`). -/
def brokenMacroZip : ZipFile :=
  ⟨["mimetype", "Basic/Standard/Module1.xml"],
   "application/vnd.oasis.opendocument.text",
   .error "no content.xml found"⟩

def brokenMacroOdf : FileContent := ⟨false, some brokenMacroZip⟩

/-- Counterexample to C6 as stated: this document carries a macro-indicating
`Basic/` entry, yet `validate_document` reports only the invalid-ODF error —
no macro error appears, so the macro failure is not unconditional. -/
theorem C6_counterexample :
    ValidationService.hasMacros brokenMacroZip = true
    ∧ (ValidationService.validate_document validation_service brokenMacroOdf noRules).errors
        = ["Invalid ODF file: no content.xml found"]
    ∧ odfMacrosError
        ∉ (ValidationService.validate_document validation_service brokenMacroOdf noRules).errors
    ∧ docxMacrosError
        ∉ (ValidationService.validate_document validation_service brokenMacroOdf noRules).errors := by
  decide

/-- A plain-text document: its bytes neither start with `%PDF-` nor form a
ZIP archive. -/
def plainTextFile : FileContent := ⟨false, none⟩

/-- Counterexample to C3 as stated: validating a plain-text document does
yield `compliant = false`, but the single error is the unsupported-format
message — no error mentions the missing `title` field. -/
theorem C3_counterexample :
    (ValidationService.validate_document validation_service plainTextFile titleRules).compliant
        = false
    ∧ (ValidationService.validate_document validation_service plainTextFile titleRules).errors
        = [unsupportedError]
    ∧ (ValidationService.validate_document validation_service plainTextFile titleRules).errors.all
        (fun e => !strContains e "title") = true := by
  decide

/-- C3 (amended): validating an ODF text document that contains no metadata
fields against `rules_json.metadata = {"title": "X"}` yields
`compliant = false` with an error mentioning the missing `title` field; a
plain-text upload instead fails with the unsupported-format error. -/
theorem C3_missing_title_scenario :
    (ValidationService.validate_document validation_service emptyMetaOdt titleRules).compliant
        = false
    ∧ missingFieldError "title"
        ∈ (ValidationService.validate_document validation_service emptyMetaOdt titleRules).errors
    ∧ strContains (missingFieldError "title") "title" = true := by
  decide

/-! ### Inheritance resolution (C2, C5) -/

theorem findAssignment_mem {db : Db} {tid : Nat} {tt : TargetType} {a : StandardAssignment}
    (h : findAssignment db tid tt = some a) : a ∈ db.assignments :=
  List.mem_of_find?_eq_some h

/-- Under referential integrity of `standard_version_id`, `db.get` on a found
assignment's version id succeeds. -/
theorem getVersion_fk {db : Db}
    (hfk : ∀ a ∈ db.assignments, db.versions.contains a.standard_version_id = true)
    {a : StandardAssignment} (ha : a ∈ db.assignments) :
    getVersion db a.standard_version_id = some a.standard_version_id := by
  unfold getVersion
  rw [if_pos (hfk a ha)]

/-- The ancestor walk computes the nearest-ancestor resolution: whenever the
loop terminates within `fuel` iterations, its result is the first hit on the
ancestor chain, and it is NOT_FOUND exactly when no folder on the chain
carries a FOLDER-type assignment. -/
theorem walkAncestors_spec (db : Db)
    (hfk : ∀ a ∈ db.assignments, db.versions.contains a.standard_version_id = true) :
    ∀ (fuel : Nat) (start : Option Nat) (r : Option Nat),
      walkAncestors db fuel start = some r →
      r = firstFolderHit db (ancestorChain db fuel start)
      ∧ (r = none ↔ ∀ f ∈ ancestorChain db fuel start, findAssignment db f .FOLDER = none) := by
  intro fuel
  induction fuel with
  | zero =>
      intro start r h
      cases start with
      | none =>
          simp only [walkAncestors, Option.some.injEq] at h
          subst h
          simp [ancestorChain, firstFolderHit]
      | some fid => simp [walkAncestors] at h
  | succ n ih =>
      intro start r h
      cases start with
      | none =>
          simp only [walkAncestors, Option.some.injEq] at h
          subst h
          simp [ancestorChain, firstFolderHit]
      | some fid =>
          simp only [walkAncestors] at h
          cases hfa : findAssignment db fid .FOLDER with
          | some a =>
              rw [hfa] at h
              simp only [Option.some.injEq] at h
              subst h
              have hv := getVersion_fk hfk (findAssignment_mem hfa)
              constructor
              · simp only [ancestorChain, firstFolderHit, hfa]
              · rw [hv]
                constructor
                · intro h'; cases h'
                · intro hall
                  have : findAssignment db fid .FOLDER = none := by
                    apply hall
                    simp [ancestorChain]
                  rw [hfa] at this
                  cases this
          | none =>
              rw [hfa] at h
              cases hpar : nlookup db.folders fid with
              | none =>
                  rw [hpar] at h
                  simp only [Option.some.injEq] at h
                  subst h
                  constructor
                  · simp only [ancestorChain, firstFolderHit, hfa, hpar]
                  · constructor
                    · intro _ f hf
                      simp only [ancestorChain, hpar] at hf
                      rcases List.mem_cons.mp hf with rfl | h'
                      · exact hfa
                      · cases h'
                    · intro _; rfl
              | some parent =>
                  rw [hpar] at h
                  obtain ⟨h1, h2⟩ := ih parent r h
                  constructor
                  · simp only [ancestorChain, firstFolderHit, hfa, hpar]
                    exact h1
                  · rw [h2]
                    constructor
                    · intro hall f hf
                      simp only [ancestorChain, hpar] at hf
                      rcases List.mem_cons.mp hf with rfl | h'
                      · exact hfa
                      · exact hall f h'
                    · intro hall f hf
                      apply hall
                      simp only [ancestorChain, hpar]
                      exact List.mem_cons_of_mem _ hf

/-- C2: whenever `get_effective_standard_version` terminates (within `fuel`
loop iterations) and assignment version ids satisfy referential integrity,
the result refines the spec's nearest-ancestor resolution: the target's own
direct assignment wins; otherwise the first FOLDER-type assignment on the
ancestor chain (a document's `folder_id` chain, a folder's `parent_id`
chain) is returned; and the result is NOT_FOUND exactly when, absent a
direct assignment, no folder on the chain up to the root has an
assignment. -/
theorem C2_nearest_ancestor_resolution (db : Db) (fuel target_id : Nat) (tt : TargetType)
    (r : Option Nat)
    (hterm : get_effective_standard_version db fuel target_id tt = some r)
    (hfk : ∀ a ∈ db.assignments, db.versions.contains a.standard_version_id = true) :
    r = specResolve db fuel target_id tt
    ∧ (∀ a, findAssignment db target_id tt = some a → r = some a.standard_version_id)
    ∧ (findAssignment db target_id tt = none →
        (r = none ↔ ∀ f ∈ ancestorChain db fuel (startFolder db target_id tt),
            findAssignment db f .FOLDER = none)) := by
  unfold get_effective_standard_version at hterm
  cases hfa : findAssignment db target_id tt with
  | some a =>
      rw [hfa] at hterm
      simp only [Option.some.injEq] at hterm
      subst hterm
      refine ⟨?_, ?_, ?_⟩
      · unfold specResolve
        rw [hfa]
      · intro a' ha'
        simp only [Option.some.injEq] at ha'
        subst ha'
        exact getVersion_fk hfk (findAssignment_mem hfa)
      · intro hnone
        cases hnone
  | none =>
      rw [hfa] at hterm
      obtain ⟨h1, h2⟩ := walkAncestors_spec db hfk fuel _ r hterm
      refine ⟨?_, ?_, fun _ => h2⟩
      · unfold specResolve
        rw [hfa]
        exact h1
      · intro a ha
        cases ha

/-- A concrete tree for the C2 witness: folder 1 is the root, folder 2 its
child, document 10 lives in folder 2; only folder 1 carries an assignment
(version 5). -/
def treeDb : Db := ⟨[(1, none), (2, some 1)], [(10, some 2)], [⟨1, .FOLDER, 5⟩], [5]⟩

/-- Witness for C2: resolving document 10 walks 2 → 1 and inherits
version 5, matching the nearest-ancestor spec resolution. -/
theorem C2_nearest_ancestor_resolution_witness :
    some 5 = specResolve treeDb 2 10 TargetType.DOCUMENT
    ∧ get_effective_standard_version treeDb 2 10 TargetType.DOCUMENT = some (some 5) :=
  ⟨(C2_nearest_ancestor_resolution treeDb 2 10 TargetType.DOCUMENT (some 5)
      (by decide) (by decide)).1, by decide⟩

/-- A folder table whose `parent_id` chain is cyclic: folder 1's parent is
folder 2 and folder 2's parent is folder 1; no assignments exist. -/
def cyclicDb : Db := ⟨[(1, some 2), (2, some 1)], [], [], []⟩

theorem cyclic_walk_never_terminates :
    ∀ fuel, walkAncestors cyclicDb fuel (some 1) = none
          ∧ walkAncestors cyclicDb fuel (some 2) = none := by
  intro fuel
  induction fuel with
  | zero => exact ⟨rfl, rfl⟩
  | succ n ih => exact ⟨ih.2, ih.1⟩

/-- C5 (the code, at the claim's failing input): the resolver's `while` loop
carries no maximum depth and no visited set, so on the cyclic folder table
it is still running after every number of iterations — the claimed
defensive bound does not exist in `get_effective_standard_version`. -/
theorem C5_cycle_divergence :
    ∀ fuel, get_effective_standard_version cyclicDb fuel 1 TargetType.FOLDER = none := by
  intro fuel
  exact (cyclic_walk_never_terminates fuel).2

/-! ### Assignment uniqueness (C4) -/

/-- A database holding one assignment: document 7 ↦ version 1 (both
versions 1 and 2 exist). -/
def dupDb : Db := ⟨[], [(7, some 0)], [⟨7, .DOCUMENT, 1⟩], [1, 2]⟩

/-- C4 (the code, at the claim's failing input): re-assigning document 7
from version 1 to version 2 through `StandardService.apply_to_document`
inserts a second `StandardAssignment` row for the same target instead of
updating the existing one — its existing-row query also filters on
`standard_version_id`, so a row with a different version id is not found. -/
theorem C4_reassign_inserts_second_row :
    assignmentCount dupDb 7 TargetType.DOCUMENT = 1
    ∧ (apply_to_document dupDb 2 7).assignments
        = [⟨7, TargetType.DOCUMENT, 1⟩, ⟨7, TargetType.DOCUMENT, 2⟩]
    ∧ assignmentCount (apply_to_document dupDb 2 7) 7 TargetType.DOCUMENT = 2
    ∧ ¬ AtMostOnePerTarget (apply_to_document dupDb 2 7) := by
  refine ⟨by decide, by decide, by decide, fun h => ?_⟩
  exact absurd (h 7 TargetType.DOCUMENT) (by decide)

end DocAligner
